import Mathlib

/-!
Shallow embedding of the job-processor backend core
(src/backend/src/routes/jobs.ts, src/backend/src/middleware/auth.ts,
src/backend/src/models/Job.ts).

Modelling conventions:
* The Mongo store is a list of `(id, record)` pairs plus a fresh-id counter;
  ids are the decimal strings "0", "1", ... (opaque unique identifiers).
* Request-body fields are `Option String`: `none` stands for a missing (or
  non-string) JSON field, mirroring how the handlers observe them.
* JavaScript string falsiness (`!s`) is the `s == ""` test on present strings.
* `String.prototype.trim` is embedded as `jsTrim`, dropping ECMAScript
  whitespace from both ends of the character list.
* Each HTTP handler becomes a function from the store and the request data to
  the new store and an `Except ApiError view`; the 400/401/404/500 responses
  are the four `ApiError` constructors.
* The mongoose schema validation of `Job.create` (maxlength 5000) throws inside
  the handler's try block, so the route's catch turns it into a 500
  (`InternalError`); a storage write failure is the explicit `dbFail` flag.
* `findByIdAndUpdate` is a single atomic document update (MongoDB guarantees
  per-document atomicity); concurrency is modelled as interleaving of the
  atomic operations, i.e. traces of `Req` steps applied to the store.
-/

namespace JobProcessor

/-- Job status enum from src/backend/src/models/Job.ts. -/
inductive JobStatus
  | PENDING
  | COMPLETED
  | FAILED
deriving DecidableEq, Repr

/-- The error taxonomy of the HTTP surface: 400, 401, 404, 500. -/
inductive ApiError
  | ValidationError
  | Unauthorized
  | NotFound
  | InternalError
deriving DecidableEq, Repr

/-- ECMAScript whitespace characters recognised by `String.prototype.trim`
(space, tab, LF, CR, VT, FF, NBSP, BOM, and the line/paragraph separators). -/
def isJsWhitespace (c : Char) : Bool :=
  c = ' ' || c = '\t' || c = '\n' || c = '\r' ||
  c = Char.ofNat 11 || c = Char.ofNat 12 || c = Char.ofNat 0xA0 ||
  c = Char.ofNat 0xFEFF || c = Char.ofNat 0x2028 || c = Char.ofNat 0x2029

/-- Embedding of JavaScript `String.prototype.trim`: remove leading and
trailing whitespace. -/
def jsTrim (s : String) : String :=
  String.mk (((s.data.dropWhile isJsWhitespace).reverse.dropWhile
    isJsWhitespace).reverse)

/-- A persisted job document (schema of src/backend/src/models/Job.ts;
`timestamps: true` adds `createdAt`/`updatedAt`). -/
structure JobRecord where
  prompt : String
  status : JobStatus
  result : Option String
  createdAt : Nat
  updatedAt : Nat
deriving DecidableEq, Repr

/-- The Mongo job collection: association list from id to document, plus a
counter used to mint fresh ids. -/
structure Store where
  jobs : List (String × JobRecord)
  nextId : Nat
deriving DecidableEq, Repr

def Store.empty : Store := ⟨[], 0⟩

/-- `Job.findById`: look a document up by its id. -/
def Store.findById (st : Store) (id : String) : Option JobRecord :=
  (st.jobs.find? (fun e => e.1 == id)).map (fun e => e.2)

/-- Response body of a successful POST /jobs (the public view: no result, no
updatedAt). -/
structure CreateView where
  id : String
  prompt : String
  status : JobStatus
  createdAt : Nat
deriving DecidableEq, Repr

/-- Response body of a successful POST /jobs/webhook/callback. -/
structure CallbackView where
  id : String
  prompt : String
  status : JobStatus
  result : Option String
  updatedAt : Nat
deriving DecidableEq, Repr

/-- Response body of a successful GET /jobs/:id, and the element shape of
GET /jobs (the full view). -/
structure FullView where
  id : String
  prompt : String
  status : JobStatus
  result : Option String
  createdAt : Nat
  updatedAt : Nat
deriving DecidableEq, Repr

/-- POST /jobs (jobs.ts lines 13-46). Returns the store after the request,
the list of background callback tasks scheduled by the request (the
`simulateN8nCallback(job._id)` call on line 32, reached only after
`Job.create` returned), and the HTTP outcome.
`prompt? = none` models a missing or non-string `prompt` field; `dbFail`
models the storage write inside `Job.create` failing. The mongoose schema
check `maxlength: 5000` runs inside `Job.create`, so its failure is caught
by the route's catch block and surfaces as a 500 `InternalError`. -/
def createJob (st : Store) (prompt? : Option String) (now : Nat)
    (dbFail : Bool) : Store × List String × Except ApiError CreateView :=
  match prompt? with
  | none => (st, [], .error .ValidationError)
  | some prompt =>
    if (jsTrim prompt).length == 0 then
      (st, [], .error .ValidationError)
    else if 5000 < (jsTrim prompt).length then
      (st, [], .error .InternalError)
    else if dbFail then
      (st, [], .error .InternalError)
    else
      let id := toString st.nextId
      let job : JobRecord :=
        { prompt := jsTrim prompt, status := .PENDING, result := none,
          createdAt := now, updatedAt := now }
      ({ jobs := st.jobs ++ [(id, job)], nextId := st.nextId + 1 },
       [id],
       .ok { id := id, prompt := job.prompt, status := job.status,
             createdAt := job.createdAt })

/-- `process.env.WEBHOOK_SECRET || 'dev-secret-key'` (auth.ts line 3,
jobs.ts line 6): the configured secret when it is a non-empty string,
otherwise the hard-coded default. -/
def sharedSecret (env? : Option String) : String :=
  match env? with
  | none => "dev-secret-key"
  | some s => if s == "" then "dev-secret-key" else s

/-- The middleware check of auth.ts lines 9-21: the request passes exactly
when the `x-webhook-secret` header is present, truthy, and equal to the
shared secret. -/
def validateWebhookSecret (secret? : Option String) (shared : String) : Bool :=
  match secret? with
  | none => false
  | some s => !(s == "") && s == shared

/-- The document update applied by the callback: set `status` to COMPLETED,
store the payload's `result` verbatim, refresh `updatedAt`. -/
def completedRec (j : JobRecord) (r : String) (now : Nat) : JobRecord :=
  { j with status := .COMPLETED, result := some r, updatedAt := now }

/-- Replace the value stored under `id`, leaving every other entry alone. -/
def updEntry (id : String) (upd : JobRecord) (e : String × JobRecord) :
    String × JobRecord :=
  if e.1 == id then (e.1, upd) else e

/-- `Job.findByIdAndUpdate(jobId, {status: COMPLETED, result}, {new: true})`
(jobs.ts lines 67-74) with `timestamps: true` refreshing `updatedAt`: one
atomic document update returning the updated document, or `none` on a miss. -/
def findByIdAndUpdateCompleted (st : Store) (id : String) (r : String)
    (now : Nat) : Store × Option JobRecord :=
  match st.findById id with
  | none => (st, none)
  | some job =>
    ({ st with jobs := st.jobs.map (updEntry id (completedRec job r now)) },
     some (completedRec job r now))

/-- The handler body of POST /jobs/webhook/callback after the auth middleware
(jobs.ts lines 55-95): falsy `jobId` or `result` → 400 before any lookup;
lookup miss → 404; otherwise the atomic update and the updated view. -/
def completeCore (st : Store) (jobId? result? : Option String) (now : Nat) :
    Store × Except ApiError CallbackView :=
  match jobId?, result? with
  | some jobId, some r =>
    if jobId == "" || r == "" then
      (st, .error .ValidationError)
    else
      match findByIdAndUpdateCompleted st jobId r now with
      | (st', none) => (st', .error .NotFound)
      | (st', some job) =>
        (st', .ok { id := jobId, prompt := job.prompt, status := job.status,
                    result := job.result, updatedAt := job.updatedAt })
  | _, _ => (st, .error .ValidationError)

/-- POST /jobs/webhook/callback including the `validateWebhookSecret`
middleware (jobs.ts line 54): an invalid secret answers 401 and the handler
body never runs. -/
def webhookCallback (st : Store) (env? secret? jobId? result? : Option String)
    (now : Nat) : Store × Except ApiError CallbackView :=
  if validateWebhookSecret secret? (sharedSecret env?) then
    completeCore st jobId? result? now
  else
    (st, .error .Unauthorized)

/-- GET /jobs/:id (jobs.ts lines 102-128). -/
def getJob (st : Store) (id : String) : Except ApiError FullView :=
  match st.findById id with
  | none => .error .NotFound
  | some j =>
    .ok { id := id, prompt := j.prompt, status := j.status, result := j.result,
          createdAt := j.createdAt, updatedAt := j.updatedAt }

def FullView.ofEntry (e : String × JobRecord) : FullView :=
  { id := e.1, prompt := e.2.prompt, status := e.2.status,
    result := e.2.result, createdAt := e.2.createdAt,
    updatedAt := e.2.updatedAt }

/-- The `sort({createdAt: -1})` order of GET /jobs: most recent first. -/
def byRecency (a b : String × JobRecord) : Prop :=
  b.2.createdAt ≤ a.2.createdAt

instance : DecidableRel byRecency := fun _ _ => Nat.decLe _ _

instance : IsTotal (String × JobRecord) byRecency :=
  ⟨fun a b => by unfold byRecency; exact Nat.le_total b.2.createdAt a.2.createdAt⟩

instance : IsTrans (String × JobRecord) byRecency :=
  ⟨fun _ _ _ h1 h2 => by unfold byRecency at h1 h2 ⊢; exact le_trans h2 h1⟩

instance {ε α : Type} [DecidableEq ε] [DecidableEq α] :
    DecidableEq (Except ε α) := fun x y =>
  match x, y with
  | .ok a, .ok b =>
    if h : a = b then isTrue (by rw [h])
    else isFalse (by intro hc; cases hc; exact h rfl)
  | .error a, .error b =>
    if h : a = b then isTrue (by rw [h])
    else isFalse (by intro hc; cases hc; exact h rfl)
  | .ok _, .error _ => isFalse (by intro hc; cases hc)
  | .error _, .ok _ => isFalse (by intro hc; cases hc)

/-- GET /jobs (jobs.ts lines 134-154): `Job.find().sort({createdAt: -1})`
mapped to full views. -/
def listJobs (st : Store) : List FullView :=
  (List.insertionSort byRecency st.jobs).map FullView.ofEntry

/-- One state-mutating request hitting the service. Reads (GET) do not change
the store, so traces consist of the two mutating requests; `Get`/`List` are
applied to reachable stores directly. -/
inductive Req
  | create (prompt? : Option String) (now : Nat) (dbFail : Bool)
  | callback (secret? jobId? result? : Option String) (now : Nat)
deriving Repr

/-- Store after one request. -/
def applyReq (env? : Option String) (st : Store) : Req → Store
  | .create p now dbFail => (createJob st p now dbFail).1
  | .callback s j r now => (webhookCallback st env? s j r now).1

/-- Store after a whole trace of requests, starting from the empty
collection. Concurrent requests are modelled by their interleaving: each
storage operation is atomic (per-document atomicity of the store). -/
def runTrace (env? : Option String) (reqs : List Req) : Store :=
  reqs.foldl (applyReq env?) Store.empty

/-- Per-document consistency: never FAILED (no code path produces it), and
the result is absent exactly while the job is PENDING. -/
def JobRecord.consistent (j : JobRecord) : Prop :=
  j.status ≠ .FAILED ∧ (j.status = .PENDING ↔ j.result = none)

instance : DecidablePred JobRecord.consistent := fun j => by
  unfold JobRecord.consistent
  infer_instance

/-- Store-wide consistency invariant. -/
def Store.inv (st : Store) : Prop :=
  ∀ e ∈ st.jobs, JobRecord.consistent e.2

instance : DecidablePred Store.inv := fun st =>
  List.decidableBAll _ st.jobs

/-! ### Helper lemmas -/

theorem find?_key_append_of_some {l l₂ : List (String × JobRecord)} {k : String}
    {e : String × JobRecord} (h : l.find? (fun x => x.1 == k) = some e) :
    (l ++ l₂).find? (fun x => x.1 == k) = some e := by
  rw [List.find?_append, h]; rfl

theorem findById_append_of_some {st : Store} {l₂ : List (String × JobRecord)}
    {k : String} {j : JobRecord} (h : st.findById k = some j) :
    Store.findById ⟨st.jobs ++ l₂, st.nextId + 1⟩ k = some j := by
  simp only [Store.findById, Option.map_eq_some'] at h ⊢
  obtain ⟨e, he, hej⟩ := h
  exact ⟨e, find?_key_append_of_some he, hej⟩

theorem updEntry_key (id : String) (upd : JobRecord) (e : String × JobRecord) :
    (updEntry id upd e).1 = e.1 := by
  unfold updEntry
  by_cases h : e.1 == id <;> simp [h]

/-- Looking up key `k` after the atomic update of key `id`: the entry found is
the original one, with its value replaced by the updated record when `k = id`. -/
theorem find?_after_update (l : List (String × JobRecord)) (k : String)
    (id : String) (upd : JobRecord) :
    (l.map (updEntry id upd)).find? (fun e => e.1 == k) =
      (l.find? (fun e => e.1 == k)).map (updEntry id upd) := by
  rw [List.find?_map]
  have hfun : ((fun e : String × JobRecord => e.1 == k) ∘ updEntry id upd) =
      fun e : String × JobRecord => e.1 == k := by
    funext e
    simp only [Function.comp_apply, updEntry_key]
  rw [hfun]

theorem sharedSecret_ne_empty (env? : Option String) : sharedSecret env? ≠ "" := by
  cases env? with
  | none => simp [sharedSecret]
  | some s =>
    simp only [sharedSecret]
    by_cases h : s == ""
    · simp [h]
    · simpa [h] using by simpa using h

/-- The auth middleware accepts exactly the shared secret (which is never
empty). -/
theorem validateWebhookSecret_iff (secret? : Option String)
    (env? : Option String) :
    validateWebhookSecret secret? (sharedSecret env?) = true ↔
      secret? = some (sharedSecret env?) := by
  cases secret? with
  | none => simp [validateWebhookSecret]
  | some s =>
    simp only [validateWebhookSecret, Bool.and_eq_true, Bool.not_eq_true',
      beq_iff_eq, beq_eq_false_iff_ne, ne_eq, Option.some.injEq]
    constructor
    · rintro ⟨-, h⟩; exact h
    · rintro rfl
      exact ⟨sharedSecret_ne_empty env?, rfl⟩

/-- Evaluation of `createJob` on a valid prompt with a healthy store. -/
theorem createJob_success {s : String} (st : Store) (now : Nat)
    (h0 : (jsTrim s).length ≠ 0) (h1 : (jsTrim s).length ≤ 5000) :
    createJob st (some s) now false =
      (⟨st.jobs ++ [(toString st.nextId,
          ⟨jsTrim s, .PENDING, none, now, now⟩)], st.nextId + 1⟩,
       [toString st.nextId],
       .ok ⟨toString st.nextId, jsTrim s, .PENDING, now⟩) := by
  simp [createJob, h0, Nat.not_lt.mpr h1]

/-- Evaluation of `webhookCallback` with the correct secret on an existing
job: the unconditional atomic overwrite of jobs.ts lines 67-74. -/
theorem webhookCallback_update {st : Store} {jobId : String} {j : JobRecord}
    (env? : Option String) (r : String) (now : Nat)
    (hfind : st.findById jobId = some j) (hid : jobId ≠ "") (hr : r ≠ "") :
    webhookCallback st env? (some (sharedSecret env?)) (some jobId)
        (some r) now =
      ({ st with jobs := st.jobs.map (updEntry jobId (completedRec j r now)) },
       .ok ⟨jobId, j.prompt, .COMPLETED, some r, now⟩) := by
  have hsec : validateWebhookSecret (some (sharedSecret env?))
      (sharedSecret env?) = true :=
    (validateWebhookSecret_iff _ _).mpr rfl
  simp only [webhookCallback, hsec, if_true, completeCore]
  rw [if_neg]
  · simp only [findByIdAndUpdateCompleted, hfind]
    simp [completedRec]
  · simp [hid, hr]

theorem consistent_completedRec (j : JobRecord) (r : String) (now : Nat) :
    JobRecord.consistent (completedRec j r now) := by
  constructor <;> simp [completedRec, JobRecord.consistent]

/-- The store after `createJob` is either untouched (any error path) or the
old store with the fresh document appended. -/
theorem createJob_store (st : Store) (p? : Option String) (now : Nat)
    (f : Bool) :
    (createJob st p? now f).1 = st ∨
    ∃ s, p? = some s ∧
      (createJob st p? now f).1 =
        ⟨st.jobs ++ [(toString st.nextId,
           ⟨jsTrim s, .PENDING, none, now, now⟩)], st.nextId + 1⟩ := by
  cases p? with
  | none => left; rfl
  | some s =>
    by_cases h0 : (jsTrim s).length == 0
    · left; simp [createJob, h0]
    · by_cases h1 : 5000 < (jsTrim s).length
      · left; simp [createJob, h0, h1]
      · cases f with
        | true => left; simp [createJob, h0, h1]
        | false => right; exact ⟨s, rfl, by simp [createJob, h0, h1]⟩

/-- The store after the callback handler body is either untouched (validation
failure or lookup miss) or has exactly one document atomically overwritten. -/
theorem completeCore_store (st : Store) (jid res : Option String) (now : Nat) :
    (completeCore st jid res now).1 = st ∨
    ∃ jobId r job, jid = some jobId ∧ res = some r ∧ r ≠ "" ∧
      st.findById jobId = some job ∧
      (completeCore st jid res now).1 =
        { st with jobs := st.jobs.map (updEntry jobId (completedRec job r now)) } := by
  cases jid with
  | none => left; cases res <;> rfl
  | some jobId =>
    cases res with
    | none => left; rfl
    | some r =>
      by_cases he : (jobId == "" || r == "")
      · left; simp [completeCore, he]
      · cases hf : st.findById jobId with
        | none => left; simp [completeCore, he, findByIdAndUpdateCompleted, hf]
        | some job =>
          right
          refine ⟨jobId, r, job, rfl, rfl, ?_, hf, ?_⟩
          · intro hrr
            simp [hrr] at he
          · simp [completeCore, he, findByIdAndUpdateCompleted, hf]

theorem inv_update (st : Store) (jobId : String) (r : String) (now : Nat)
    (job : JobRecord) (h : st.inv) :
    Store.inv { st with jobs := st.jobs.map (updEntry jobId (completedRec job r now)) } := by
  intro e he
  obtain ⟨x, hx, rfl⟩ := List.mem_map.mp he
  unfold updEntry
  by_cases hk : x.1 == jobId
  · simp only [hk, if_true]
    exact consistent_completedRec job r now
  · simp only [hk]
    simpa using h x hx

theorem inv_applyReq (env? : Option String) (st : Store) (req : Req)
    (h : st.inv) : (applyReq env? st req).inv := by
  cases req with
  | create p now f =>
    rcases createJob_store st p now f with hst | ⟨s, -, hst⟩
    · rw [show applyReq env? st (.create p now f) = (createJob st p now f).1 from rfl, hst]
      exact h
    · rw [show applyReq env? st (.create p now f) = (createJob st p now f).1 from rfl, hst]
      intro e he
      rcases List.mem_append.mp he with hold | hnew
      · exact h e hold
      · rcases List.mem_singleton.mp hnew with rfl
        constructor <;> simp [JobRecord.consistent]
  | callback sec jid res now =>
    show Store.inv (webhookCallback st env? sec jid res now).1
    unfold webhookCallback
    by_cases hv : validateWebhookSecret sec (sharedSecret env?)
    · simp only [hv, if_true]
      rcases completeCore_store st jid res now with hst | ⟨jobId, r, job, -, -, -, -, hst⟩
      · rw [hst]; exact h
      · rw [hst]; exact inv_update st jobId r now job h
    · simp only [hv, if_false]
      exact h

theorem inv_empty : Store.empty.inv := by
  intro e he
  cases he

theorem inv_foldl (env? : Option String) :
    ∀ (reqs : List Req) (st : Store), st.inv →
      (reqs.foldl (applyReq env?) st).inv
  | [], _, h => h
  | r :: rs, st, h =>
    inv_foldl env? rs (applyReq env? st r) (inv_applyReq env? st r h)

/-- Every reachable store satisfies the consistency invariant. -/
theorem inv_runTrace (env? : Option String) (reqs : List Req) :
    (runTrace env? reqs).inv :=
  inv_foldl env? reqs Store.empty inv_empty

/-- Workhorse step lemma: if a job is present before and after one request,
its record is either unchanged, or was atomically overwritten to
COMPLETED with a non-empty result and a refreshed `updatedAt`. -/
theorem step_findById {env? : Option String} {st : Store} {req : Req}
    {k : String} {j j' : JobRecord} (hj : st.findById k = some j)
    (hj' : (applyReq env? st req).findById k = some j') :
    j' = j ∨ ∃ r now, r ≠ "" ∧ j' = completedRec j r now := by
  cases req with
  | create p now f =>
    left
    rcases createJob_store st p now f with hst | ⟨s, -, hst⟩
    · rw [show applyReq env? st (.create p now f) = (createJob st p now f).1 from rfl,
        hst, hj] at hj'
      exact (Option.some.inj hj').symm
    · rw [show applyReq env? st (.create p now f) = (createJob st p now f).1 from rfl,
        hst] at hj'
      rw [findById_append_of_some hj] at hj'
      exact (Option.some.inj hj').symm
  | callback sec jid res now =>
    have happ : applyReq env? st (.callback sec jid res now) =
        (webhookCallback st env? sec jid res now).1 := rfl
    rw [happ] at hj'
    unfold webhookCallback at hj'
    by_cases hv : validateWebhookSecret sec (sharedSecret env?)
    · rw [if_pos hv] at hj'
      rcases completeCore_store st jid res now with hst | ⟨jobId, r, job, -, -, hr, hf, hst⟩
      · rw [hst, hj] at hj'
        exact Or.inl (Option.some.inj hj').symm
      · rw [hst] at hj'
        have hj0 := hj
        simp only [Store.findById, find?_after_update] at hj'
        simp only [Store.findById, Option.map_eq_some'] at hj
        obtain ⟨e, he, hej⟩ := hj
        rw [he] at hj'
        simp only [Option.map_some', Option.some.injEq] at hj'
        have hek : e.1 = k := by
          have := List.find?_some he
          simpa using this
        unfold updEntry at hj'
        by_cases hk : e.1 == jobId
        · rw [if_pos hk] at hj'
          have hkj : k = jobId := by
            have h1 : e.1 = jobId := by simpa using hk
            rw [← hek, h1]
          have hjob : job = j := by
            rw [← hkj] at hf
            exact Option.some.inj (hf.symm.trans hj0)
          right
          refine ⟨r, now, hr, ?_⟩
          rw [← hj', hjob]
        · rw [if_neg hk] at hj'
          left
          rw [← hj']
          exact hej
    · rw [if_neg hv] at hj'
      have hj'' : st.findById k = some j' := hj'
      exact Or.inl (Option.some.inj (hj.symm.trans hj'')).symm


theorem consistent_of_findById {st : Store} {k : String} {j : JobRecord}
    (hinv : st.inv) (h : st.findById k = some j) : JobRecord.consistent j := by
  simp only [Store.findById, Option.map_eq_some'] at h
  obtain ⟨e, he, hej⟩ := h
  exact hej ▸ hinv e (List.mem_of_find?_eq_some he)

theorem findById_after_update (st : Store) {jobId : String} {j : JobRecord}
    (upd : JobRecord) (hfind : st.findById jobId = some j) :
    Store.findById { st with jobs := st.jobs.map (updEntry jobId upd) } jobId =
      some upd := by
  simp only [Store.findById, find?_after_update]
  simp only [Store.findById, Option.map_eq_some'] at hfind
  obtain ⟨e, he, -⟩ := hfind
  rw [he]
  have hek : e.1 = jobId := by simpa using List.find?_some he
  simp [updEntry, hek]

/-- Full case analysis of `createJob`: every run either changes nothing and
reports an error, or appends the fresh PENDING document, schedules exactly one
callback task for it, and returns its public view. -/
theorem createJob_cases (st : Store) (p? : Option String) (now : Nat)
    (f : Bool) :
    (∃ e, createJob st p? now f = (st, [], .error e)) ∨
    (∃ s, p? = some s ∧ f = false ∧ (jsTrim s).length ≠ 0 ∧
      (jsTrim s).length ≤ 5000 ∧
      createJob st p? now f =
        (⟨st.jobs ++ [(toString st.nextId,
            ⟨jsTrim s, .PENDING, none, now, now⟩)], st.nextId + 1⟩,
         [toString st.nextId],
         .ok ⟨toString st.nextId, jsTrim s, .PENDING, now⟩)) := by
  cases p? with
  | none => exact Or.inl ⟨.ValidationError, rfl⟩
  | some s =>
    by_cases h0 : (jsTrim s).length == 0
    · exact Or.inl ⟨.ValidationError, by simp [createJob, h0]⟩
    · by_cases h1 : 5000 < (jsTrim s).length
      · exact Or.inl ⟨.InternalError, by simp [createJob, h0, h1]⟩
      · cases f with
        | true => exact Or.inl ⟨.InternalError, by simp [createJob, h0, h1]⟩
        | false =>
          refine Or.inr ⟨s, rfl, rfl, by simpa using h0, Nat.not_lt.mp h1, ?_⟩
          simp [createJob, h0, h1]

theorem getJob_ok {st : Store} {k : String} {v : FullView}
    (h : getJob st k = .ok v) :
    ∃ j, st.findById k = some j ∧
      v = ⟨k, j.prompt, j.status, j.result, j.createdAt, j.updatedAt⟩ := by
  unfold getJob at h
  cases hf : st.findById k with
  | none => rw [hf] at h; cases h
  | some j =>
    rw [hf] at h
    exact ⟨j, rfl, (Except.ok.inj h).symm⟩

/-! ### Claims -/

/-- C1, counterexample to "result is set exactly once, upon the transition to
COMPLETED": after a job is created and completed with result "r1", a second
authorized callback stores "r2" — the result is assigned a second time while
the status stays COMPLETED, with no state transition occurring (jobs.ts lines
67-74 overwrite unconditionally). -/
theorem C1_counterexample :
    (runTrace none [.create (some "p") 0 false,
        .callback (some "dev-secret-key") (some "0") (some "r1") 1]).findById
        "0" = some ⟨"p", .COMPLETED, some "r1", 0, 1⟩ ∧
    (runTrace none [.create (some "p") 0 false,
        .callback (some "dev-secret-key") (some "0") (some "r1") 1,
        .callback (some "dev-secret-key") (some "0") (some "r2") 2]).findById
        "0" = some ⟨"p", .COMPLETED, some "r2", 0, 2⟩ := by
  constructor <;> rfl

/-- C1 (amended): every job starts at PENDING; over any reachable state and
any further request, a status change is always PENDING → COMPLETED (hence at
most one transition and none out of a terminal state); the result is unset
exactly while PENDING; and any result change leaves the job COMPLETED with a
set result — the result is first set on the transition to COMPLETED but may
be overwritten by later Complete calls, never unset. -/
theorem C1_lifecycle (env? : Option String) (reqs : List Req) (req : Req)
    (k : String) (j j' : JobRecord) (p? : Option String) (now : Nat) (f : Bool)
    (hj : (runTrace env? reqs).findById k = some j)
    (hj' : (applyReq env? (runTrace env? reqs) req).findById k = some j') :
    (∀ v, (createJob (runTrace env? reqs) p? now f).2.2 = .ok v →
      v.status = .PENDING) ∧
    (j.status = .PENDING ↔ j.result = none) ∧
    j.status ≠ .FAILED ∧
    (j.status ≠ j'.status → j.status = .PENDING ∧ j'.status = .COMPLETED) ∧
    (j.result ≠ j'.result → j'.status = .COMPLETED ∧ j'.result ≠ none) := by
  have hcons := consistent_of_findById (inv_runTrace env? reqs) hj
  have hstep := step_findById hj hj'
  refine ⟨?_, hcons.2, hcons.1, ?_, ?_⟩
  · intro v hv
    rcases createJob_cases (runTrace env? reqs) p? now f with
      ⟨e, he⟩ | ⟨s, -, -, -, -, he⟩
    · rw [he] at hv; cases hv
    · rw [he] at hv
      rw [← Except.ok.inj hv]
  · intro hne
    rcases hstep with rfl | ⟨r, now', -, rfl⟩
    · exact absurd rfl hne
    · have hS : (completedRec j r now').status = .COMPLETED := rfl
      rw [hS] at hne ⊢
      refine ⟨?_, rfl⟩
      cases hstatus : j.status with
      | PENDING => rfl
      | COMPLETED => exact absurd hstatus hne
      | FAILED => exact absurd hstatus hcons.1
  · intro hne
    rcases hstep with rfl | ⟨r, now', -, rfl⟩
    · exact absurd rfl hne
    · exact ⟨rfl, by simp [completedRec]⟩

/-- C1 witness for the amended theorem: a concrete PENDING → COMPLETED step. -/
theorem C1_lifecycle_witness :
    (⟨"p", .PENDING, none, 0, 0⟩ : JobRecord).status = .PENDING ∧
    (⟨"p", .COMPLETED, some "r1", 0, 1⟩ : JobRecord).status = .COMPLETED :=
  (C1_lifecycle none [.create (some "p") 0 false]
    (.callback (some "dev-secret-key") (some "0") (some "r1") 1) "0"
    ⟨"p", .PENDING, none, 0, 0⟩ ⟨"p", .COMPLETED, some "r1", 0, 1⟩
    (some "q") 5 false (by decide) (by decide)).2.2.2.1 (by decide)

/-- A prompt of 5001 non-whitespace characters: passes the route's own check
but violates the schema's `maxlength: 5000`. -/
def longPrompt : String := String.mk (List.replicate 5001 'a')

theorem dropWhile_replicate_a (n : Nat) :
    (List.replicate n 'a').dropWhile isJsWhitespace = List.replicate n 'a' := by
  cases n with
  | zero => rfl
  | succ m =>
    rw [List.replicate_succ, List.dropWhile_cons]
    have ha : isJsWhitespace 'a' = false := by decide
    simp [ha]

theorem jsTrim_longPrompt : jsTrim longPrompt = longPrompt := by
  show String.mk _ = _
  rw [show longPrompt.data = List.replicate 5001 'a' from rfl,
    dropWhile_replicate_a, List.reverse_replicate, dropWhile_replicate_a,
    List.reverse_replicate]
  rfl

theorem longPrompt_length : (jsTrim longPrompt).length = 5001 := by
  rw [jsTrim_longPrompt]
  show (List.replicate 5001 'a').length = 5001
  rw [List.length_replicate]

/-- C2, counterexample to "on violation Create fails with ValidationError":
a 5001-character prompt is a violation (trimmed length outside [1, 5000]),
yet `Create` answers 500 `InternalError`, not 400 `ValidationError` — the
route (jobs.ts lines 18-23) only checks non-emptiness, and the schema
`maxlength` throws inside `Job.create`, which the catch block (lines 40-45)
maps to 500. No job is persisted either way. -/
theorem C2_counterexample :
    5000 < (jsTrim longPrompt).length ∧
    createJob Store.empty (some longPrompt) 0 false =
      (Store.empty, [], .error .InternalError) ∧
    (createJob Store.empty (some longPrompt) 0 false).2.2 ≠
      .error .ValidationError := by
  have hl := longPrompt_length
  refine ⟨by rw [hl]; exact Nat.lt_succ_self 5000, ?_, ?_⟩
  · simp [createJob, hl]
  · simp [createJob, hl]

/-- C2 (amended): `Create` succeeds exactly on prompts whose trimmed length
lies in [1, 5000] (given healthy storage), returning a PENDING job with no
result and persisting exactly that record; a missing/non-string or
empty-after-trim prompt fails with `ValidationError`; a prompt longer than
5000 after trim fails with `InternalError` (500) — not `ValidationError` as
claimed; in every failure case nothing is persisted. -/
theorem C2_create (st : Store) (s : String) (now : Nat) :
    ((jsTrim s).length ≠ 0 → (jsTrim s).length ≤ 5000 →
      createJob st (some s) now false =
        (⟨st.jobs ++ [(toString st.nextId,
            ⟨jsTrim s, .PENDING, none, now, now⟩)], st.nextId + 1⟩,
         [toString st.nextId],
         .ok ⟨toString st.nextId, jsTrim s, .PENDING, now⟩)) ∧
    (createJob st none now false = (st, [], .error .ValidationError)) ∧
    ((jsTrim s).length = 0 →
      createJob st (some s) now false = (st, [], .error .ValidationError)) ∧
    (5000 < (jsTrim s).length →
      createJob st (some s) now false = (st, [], .error .InternalError)) := by
  refine ⟨fun h0 h1 => createJob_success st now h0 h1, rfl, ?_, ?_⟩
  · intro h0
    simp [createJob, h0]
  · intro h1
    have h0 : ¬((jsTrim s).length == 0) := by
      simp only [beq_iff_eq]
      omega
    simp [createJob, h0, h1]

/-- C2 witness: a valid prompt (trimmed to "a") succeeds as a PENDING job
with no result; a whitespace-only prompt fails with `ValidationError` and
persists nothing. -/
theorem C2_create_witness :
    createJob Store.empty (some " a ") 0 false =
      (⟨[("0", ⟨"a", .PENDING, none, 0, 0⟩)], 1⟩, ["0"],
       .ok ⟨"0", "a", .PENDING, 0⟩) ∧
    createJob Store.empty (some " ") 0 false =
      (Store.empty, [], .error .ValidationError) := by
  constructor
  · exact ((C2_create Store.empty " a " 0).1 (by decide) (by decide)).trans
      (by decide)
  · exact (C2_create Store.empty " " 0).2.2.1 (by decide)

/-- C3: with a missing or mismatched `x-webhook-secret` token the callback
endpoint answers 401 `Unauthorized`, the store is returned untouched (the
handler body — the Lifecycle Manager's `Complete` — never runs: the
middleware returns before `next()`), and every subsequent `Get` observes the
unchanged state, regardless of payload validity. -/
theorem C3_unauthorized (st : Store) (env? secret? jobId? result? : Option String)
    (now : Nat) (h : validateWebhookSecret secret? (sharedSecret env?) = false) :
    webhookCallback st env? secret? jobId? result? now =
      (st, .error .Unauthorized) ∧
    (∀ k, getJob (webhookCallback st env? secret? jobId? result? now).1 k =
      getJob st k) := by
  have h1 : webhookCallback st env? secret? jobId? result? now =
      (st, .error .Unauthorized) := by
    unfold webhookCallback
    rw [if_neg]
    simp [h]
  exact ⟨h1, fun k => by rw [h1]⟩

/-- C3 witness: the wrong secret "wrong" leaves a freshly created PENDING job
untouched and yields 401, even though the payload is valid. -/
theorem C3_unauthorized_witness :
    webhookCallback (runTrace none [.create (some "p") 0 false]) none
        (some "wrong") (some "0") (some "res") 1 =
      ((runTrace none [.create (some "p") 0 false]), .error .Unauthorized) :=
  (C3_unauthorized (runTrace none [.create (some "p") 0 false]) none
    (some "wrong") (some "0") (some "res") 1 (by decide)).1

/-- The JSON keys of the 200 response built by the callback handler
(jobs.ts lines 83-89). -/
def callbackResponseFields : List String :=
  ["id", "prompt", "status", "result", "updatedAt"]

/-- Following the spec's words (§6): "Job full view fields:
`id, prompt, status, result?, createdAt, updatedAt`". -/
def specFullViewFields : List String :=
  ["id", "prompt", "status", "result", "createdAt", "updatedAt"]

/-- C4, counterexample to "returns the updated full view": on a concrete
successful Complete the transition, verbatim result and refreshed `updatedAt`
all hold, but the response is not the full view — the handler's response
object (jobs.ts lines 83-89) omits `createdAt`, which the spec's full view
includes. -/
theorem C4_counterexample :
    webhookCallback (createJob Store.empty (some "p") 0 false).1 none
        (some "dev-secret-key") (some "0") (some "res") 1 =
      (⟨[("0", ⟨"p", .COMPLETED, some "res", 0, 1⟩)], 1⟩,
       .ok ⟨"0", "p", .COMPLETED, some "res", 1⟩) ∧
    "createdAt" ∈ specFullViewFields ∧
    "createdAt" ∉ callbackResponseFields := by
  refine ⟨by rfl, by decide, by decide⟩

/-- C4 (amended): for every existing job id and non-empty result string, an
authorized Complete atomically sets `status = COMPLETED`, stores exactly the
supplied result string verbatim, refreshes `updatedAt`, and returns the
updated view carrying `id, prompt, status, result, updatedAt` (everything
but `createdAt` of the spec's full view); a subsequent Get returns the full
updated view. -/
theorem C4_complete (st : Store) (env? : Option String) (jobId r : String)
    (j : JobRecord) (now : Nat) (hfind : st.findById jobId = some j)
    (hid : jobId ≠ "") (hr : r ≠ "") :
    webhookCallback st env? (some (sharedSecret env?)) (some jobId)
        (some r) now =
      ({ st with jobs := st.jobs.map (updEntry jobId (completedRec j r now)) },
       .ok ⟨jobId, j.prompt, .COMPLETED, some r, now⟩) ∧
    (webhookCallback st env? (some (sharedSecret env?)) (some jobId)
        (some r) now).1.findById jobId = some (completedRec j r now) ∧
    getJob (webhookCallback st env? (some (sharedSecret env?)) (some jobId)
        (some r) now).1 jobId =
      .ok ⟨jobId, j.prompt, .COMPLETED, some r, j.createdAt, now⟩ := by
  have h1 := webhookCallback_update env? r now hfind hid hr
  have h2 : (webhookCallback st env? (some (sharedSecret env?)) (some jobId)
      (some r) now).1.findById jobId = some (completedRec j r now) := by
    rw [h1]
    exact findById_after_update st (completedRec j r now) hfind
  refine ⟨h1, h2, ?_⟩
  unfold getJob
  rw [h2]
  simp [completedRec]

/-- C4 witness: completing the fresh job "0" with result "out" at time 9. -/
theorem C4_complete_witness :
    getJob (webhookCallback (createJob Store.empty (some "p") 2 false).1 none
        (some (sharedSecret none)) (some "0") (some "out") 9).1 "0" =
      .ok ⟨"0", "p", .COMPLETED, some "out", 2, 9⟩ :=
  (C4_complete (createJob Store.empty (some "p") 2 false).1 none "0" "out"
    ⟨"p", .PENDING, none, 2, 2⟩ 9 (by decide) (by decide) (by decide)).2.2

/-- C5: in the interleaving model of concurrency (each storage operation is
atomic, per MongoDB single-document atomicity), every `Get` or `List` view of
any reachable state is consistent: never `status = COMPLETED` with `result`
unset, and never `status = PENDING` with `result` set — a read racing a
Complete sees the fully-pre- or fully-post-transition record, never a mix. -/
theorem C5_atomic_views (env? : Option String) (reqs : List Req) :
    (∀ k v, getJob (runTrace env? reqs) k = .ok v →
      ¬(v.status = .COMPLETED ∧ v.result = none) ∧
      ¬(v.status = .PENDING ∧ v.result ≠ none)) ∧
    (∀ v ∈ listJobs (runTrace env? reqs),
      ¬(v.status = .COMPLETED ∧ v.result = none) ∧
      ¬(v.status = .PENDING ∧ v.result ≠ none)) := by
  have hinv := inv_runTrace env? reqs
  constructor
  · intro k v hv
    obtain ⟨j, hfind, rfl⟩ := getJob_ok hv
    have hcons := consistent_of_findById hinv hfind
    constructor
    · rintro ⟨hS, hR⟩
      have hS' : j.status = .COMPLETED := hS
      have hR' : j.result = none := hR
      have hP : j.status = .PENDING := hcons.2.mpr hR'
      rw [hS'] at hP
      cases hP
    · rintro ⟨hS, hR⟩
      have hS' : j.status = .PENDING := hS
      have hR' : j.result ≠ none := hR
      exact hR' (hcons.2.mp hS')
  · intro v hv
    obtain ⟨e, he, rfl⟩ := List.mem_map.mp hv
    have hmem : e ∈ (runTrace env? reqs).jobs :=
      (List.perm_insertionSort byRecency (runTrace env? reqs).jobs).mem_iff.mp he
    have hcons := hinv e hmem
    constructor
    · rintro ⟨hS, hR⟩
      have hS' : e.2.status = .COMPLETED := hS
      have hR' : e.2.result = none := hR
      have hP : e.2.status = .PENDING := hcons.2.mpr hR'
      rw [hS'] at hP
      cases hP
    · rintro ⟨hS, hR⟩
      have hS' : e.2.status = .PENDING := hS
      have hR' : e.2.result ≠ none := hR
      exact hR' (hcons.2.mp hS')

/-- C5 witness: a concrete read of a mid-trace state and of a completed
state. -/
theorem C5_atomic_views_witness :
    ¬((⟨"0", "p", .COMPLETED, some "r1", 0, 1⟩ : FullView).status = .COMPLETED ∧
      (⟨"0", "p", .COMPLETED, some "r1", 0, 1⟩ : FullView).result = none) :=
  ((C5_atomic_views none [.create (some "p") 0 false,
      .callback (some "dev-secret-key") (some "0") (some "r1") 1]).1 "0"
    ⟨"0", "p", .COMPLETED, some "r1", 0, 1⟩ (by decide)).1

/-- C6: on an authorized Complete, a missing or empty `jobId` or `result`
fails with `ValidationError` before any storage lookup — the 400 answer is
produced for every store, including stores that do or do not contain the job,
and the store is returned untouched; and a well-formed `jobId` matching no
job fails with `NotFound` (jobs.ts lines 59-81). -/
theorem C6_complete_checks (st : Store) (env? : Option String)
    (jobId? result? : Option String) (jid r : String) (now : Nat) :
    ((jobId? = none ∨ jobId? = some "" ∨ result? = none ∨ result? = some "") →
      webhookCallback st env? (some (sharedSecret env?)) jobId? result? now =
        (st, .error .ValidationError)) ∧
    (st.findById jid = none → jid ≠ "" → r ≠ "" →
      webhookCallback st env? (some (sharedSecret env?)) (some jid)
          (some r) now =
        (st, .error .NotFound)) := by
  have hsec : validateWebhookSecret (some (sharedSecret env?))
      (sharedSecret env?) = true :=
    (validateWebhookSecret_iff _ _).mpr rfl
  constructor
  · intro hbad
    unfold webhookCallback
    rw [if_pos hsec]
    rcases hbad with rfl | rfl | rfl | rfl
    · cases result? <;> rfl
    · cases result? with
      | none => rfl
      | some rr => simp [completeCore]
    · cases jobId? <;> rfl
    · cases jobId? with
      | none => rfl
      | some jj => simp [completeCore]
  · intro hmiss hjid hrr
    unfold webhookCallback
    rw [if_pos hsec]
    simp [completeCore, hjid, hrr, findByIdAndUpdateCompleted, hmiss]

/-- C6 witness: with a job "0" present, an empty `result` is still rejected
with 400 and the store untouched (validation precedes lookup), and the
unknown id "7" yields 404. -/
theorem C6_complete_checks_witness :
    webhookCallback (runTrace none [.create (some "p") 0 false]) none
        (some (sharedSecret none)) (some "0") (some "") 1 =
      ((runTrace none [.create (some "p") 0 false]),
       .error .ValidationError) ∧
    webhookCallback (runTrace none [.create (some "p") 0 false]) none
        (some (sharedSecret none)) (some "7") (some "res") 1 =
      ((runTrace none [.create (some "p") 0 false]), .error .NotFound) :=
  ⟨(C6_complete_checks (runTrace none [.create (some "p") 0 false]) none
      (some "0") (some "") "x" "x" 1).1 (by simp),
   (C6_complete_checks (runTrace none [.create (some "p") 0 false]) none
      none none "7" "res" 1).2 (by decide) (by decide) (by decide)⟩

/-- C7: a Complete on a job already in a terminal state is not rejected: it
overwrites again (idempotent last-write-wins), setting `status = COMPLETED`,
replacing the stored result with the newly supplied value, refreshing
`updatedAt`, and answering 200 with the updated view (the update of jobs.ts
lines 67-74 is unconditional on the current status). -/
theorem C7_overwrite (st : Store) (env? : Option String) (jobId r : String)
    (j : JobRecord) (now : Nat) (hfind : st.findById jobId = some j)
    (hterm : j.status ≠ .PENDING) (hid : jobId ≠ "") (hr : r ≠ "") :
    (webhookCallback st env? (some (sharedSecret env?)) (some jobId)
        (some r) now).2 =
      .ok ⟨jobId, j.prompt, .COMPLETED, some r, now⟩ ∧
    (webhookCallback st env? (some (sharedSecret env?)) (some jobId)
        (some r) now).1.findById jobId =
      some ⟨j.prompt, .COMPLETED, some r, j.createdAt, now⟩ := by
  have h1 := webhookCallback_update env? r now hfind hid hr
  constructor
  · rw [h1]
  · rw [h1]
    exact findById_after_update st (completedRec j r now) hfind

/-- C7 witness: job "0" is completed with "r1", then re-completed with "r2":
the second call is accepted and replaces the result. -/
theorem C7_overwrite_witness :
    (webhookCallback
        (runTrace none [.create (some "p") 0 false,
          .callback (some "dev-secret-key") (some "0") (some "r1") 1]) none
        (some (sharedSecret none)) (some "0") (some "r2") 2).1.findById "0" =
      some ⟨"p", .COMPLETED, some "r2", 0, 2⟩ :=
  (C7_overwrite
    (runTrace none [.create (some "p") 0 false,
      .callback (some "dev-secret-key") (some "0") (some "r1") 1]) none
    "0" "r2" ⟨"p", .COMPLETED, some "r1", 0, 1⟩ 2
    (by decide) (by decide) (by decide) (by decide)).2

/-- C8: `List` returns all jobs' full views (a permutation of the
collection's views), pairwise ordered by `createdAt` descending; the empty
collection gives the valid, non-error result `[]`; and creating jobs A, B, C
at increasing times yields exactly [C, B, A]. -/
theorem C8_list (st : Store) :
    (listJobs st).Perm (st.jobs.map FullView.ofEntry) ∧
    (listJobs st).Pairwise (fun a b => b.createdAt ≤ a.createdAt) ∧
    listJobs Store.empty = [] ∧
    listJobs (runTrace none
        [.create (some "A") 1 false, .create (some "B") 2 false,
         .create (some "C") 3 false]) =
      [⟨"2", "C", .PENDING, none, 3, 3⟩, ⟨"1", "B", .PENDING, none, 2, 2⟩,
       ⟨"0", "A", .PENDING, none, 1, 1⟩] := by
  refine ⟨(List.perm_insertionSort byRecency st.jobs).map FullView.ofEntry,
    ?_, rfl, by rfl⟩
  have hs := List.sorted_insertionSort byRecency st.jobs
  exact List.pairwise_map.mpr hs

/-- C9: `Create` schedules exactly one asynchronous completion attempt, for
the id of the job it just persisted, and only on the success path (jobs.ts
line 32 runs after `await Job.create` returns); on any failure — validation
or storage — no background task is scheduled and nothing is persisted. -/
theorem C9_schedule (st : Store) (p? : Option String) (now : Nat) (f : Bool) :
    (∀ v, (createJob st p? now f).2.2 = .ok v →
      (createJob st p? now f).2.1 = [v.id] ∧
      (createJob st p? now f).1.jobs =
        st.jobs ++ [(v.id, ⟨v.prompt, .PENDING, none, now, now⟩)]) ∧
    (∀ e, (createJob st p? now f).2.2 = .error e →
      (createJob st p? now f).2.1 = [] ∧ (createJob st p? now f).1 = st) := by
  rcases createJob_cases st p? now f with ⟨e0, he⟩ | ⟨s, -, -, -, -, he⟩
  · constructor
    · intro v hv
      rw [he] at hv
      cases hv
    · intro e1 _
      rw [he]
      exact ⟨rfl, rfl⟩
  · constructor
    · intro v hv
      rw [he] at hv
      rw [he, ← Except.ok.inj hv]
      exact ⟨rfl, rfl⟩
    · intro e1 hv
      rw [he] at hv
      cases hv

/-- C9 witness: a valid create schedules exactly the new job's id after
persisting it; the same create with a failing storage write schedules
nothing and persists nothing. -/
theorem C9_schedule_witness :
    (createJob Store.empty (some "hi") 4 false).2.1 = ["0"] ∧
    (createJob Store.empty (some "hi") 4 false).1.jobs =
      [("0", ⟨"hi", .PENDING, none, 4, 4⟩)] ∧
    (createJob Store.empty (some "hi") 4 true).2.1 = [] ∧
    (createJob Store.empty (some "hi") 4 true).1 = Store.empty := by
  have h1 := (C9_schedule Store.empty (some "hi") 4 false).1
    ⟨"0", "hi", .PENDING, 4⟩ (by decide)
  have h2 := (C9_schedule Store.empty (some "hi") 4 true).2
    .InternalError (by decide)
  exact ⟨h1.1, h1.2, h2.1, h2.2⟩

/-- C10: the callback authenticator accepts exactly one token — the effective
shared secret, which is the configured WEBHOOK_SECRET when that is a
non-empty string and the hard-coded "dev-secret-key" otherwise; the effective
secret is never empty, and an absent or empty-string token is always
rejected. -/
theorem C10_authenticator (env? secret? : Option String) (s : String) :
    sharedSecret env? ≠ "" ∧
    (validateWebhookSecret secret? (sharedSecret env?) = true ↔
      secret? = some (sharedSecret env?)) ∧
    (env? = some s → s ≠ "" → sharedSecret env? = s) ∧
    (env? = none ∨ env? = some "" → sharedSecret env? = "dev-secret-key") ∧
    validateWebhookSecret none (sharedSecret env?) = false ∧
    validateWebhookSecret (some "") (sharedSecret env?) = false := by
  refine ⟨sharedSecret_ne_empty env?, validateWebhookSecret_iff secret? env?,
    ?_, ?_, rfl, rfl⟩
  · rintro rfl hs
    simp [sharedSecret, hs]
  · rintro (rfl | rfl)
    · rfl
    · rfl

/-- C10 witness: a configured non-empty secret is used as-is; an empty
configured secret falls back to the default. -/
theorem C10_authenticator_witness :
    sharedSecret (some "s3cret") = "s3cret" ∧
    sharedSecret (some "") = "dev-secret-key" :=
  ⟨(C10_authenticator (some "s3cret") none "s3cret").2.2.1 rfl (by decide),
   (C10_authenticator (some "") none "x").2.2.2.1 (Or.inr rfl)⟩

end JobProcessor
